import Mathlib

/-!
Shallow embedding of the order-lifecycle core of the nutriwell backend
(`src/controllers/collection.controller.js`, order section), together with
proofs of the specified properties.

Database rows become Lean structures, the Prisma-backed store becomes an
explicit `State` record threaded through every operation, monetary values are
rationals, and each HTTP handler becomes a pure function returning an
`Except`-style outcome paired with the post-call store state.
-/

namespace NutriWell

/-- Decidable equality for `Except`, so concrete handler outcomes can be
checked by `decide`. -/
instance {ε α : Type} [DecidableEq ε] [DecidableEq α] : DecidableEq (Except ε α) := fun x y =>
  match x, y with
  | .ok a, .ok b =>
    if h : a = b then .isTrue (by rw [h]) else .isFalse (fun he => h (Except.ok.injEq .. ▸ he))
  | .error a, .error b =>
    if h : a = b then .isTrue (by rw [h]) else .isFalse (fun he => h (Except.error.injEq .. ▸ he))
  | .ok _, .error _ => .isFalse (fun he => Except.noConfusion he)
  | .error _, .ok _ => .isFalse (fun he => Except.noConfusion he)

/-- Order status enum (`OrderStatus` in the Prisma schema). -/
inductive OrderStatus
  | PENDING | PAID | PROCESSING | SHIPPED | DELIVERED | CANCELLED | REFUNDED
  deriving DecidableEq

/-- Delivery method enum (`DeliveryMethod` in the Prisma schema). -/
inductive DeliveryMethod
  | STORE_PICKUP | DELIVERY
  deriving DecidableEq

/-- A product row: the fields of the catalog record read by the order code. -/
structure Product where
  id : String
  name : String
  brand : String
  price : ℚ
  quantity : ℤ
  isActive : Bool
  deriving DecidableEq

/-- One entry of the request's `items` array: a product reference and a
requested quantity (an arbitrary integer; the JSON layer imposes no sign). -/
structure ReqItem where
  productId : String
  quantity : ℤ
  deriving DecidableEq

/-- The request's optional `shippingInfo` object; only the fields the order
code reads are kept, each optional as in the duck-typed payload. -/
structure ShippingInfo where
  country : Option String := none
  region : Option String := none
  address : Option String := none
  deriving DecidableEq

/-- The request's `contactInfo` object. -/
structure ContactInfo where
  firstName : String
  lastName : String
  phone : String
  email : String
  deriving DecidableEq

/-- An `order_items` row as created by `createOrder`. -/
structure OrderItem where
  productId : String
  productName : String
  productBrand : String
  quantity : ℤ
  price : ℚ
  subtotal : ℚ
  deriving DecidableEq

/-- An `orders` row, restricted to the fields the lifecycle code touches. -/
structure Order where
  id : String
  orderNumber : String
  userId : String
  status : OrderStatus
  subtotal : ℚ
  shippingFee : ℚ
  tax : ℚ
  total : ℚ
  contactEmail : String
  contactFirstName : String
  deliveryMethod : DeliveryMethod
  items : List OrderItem
  deriving DecidableEq

/-- The mutable store: the product table and the order table. -/
structure State where
  products : List Product
  orders : List Order
  deriving DecidableEq

/-- One element of the `errors` array of an insufficient-stock response. -/
structure StockError where
  productId : String
  productName : String
  requested : ℤ
  available : ℤ
  deriving DecidableEq

/-- Failure outcomes of `createOrder`. `resolutionFailure` models the
uncaught exception path (HTTP 500) that would fire if `products.find`
returned `undefined` inside the item-building map. -/
inductive OrderError
  | emptyOrder
  | shippingRequired
  | productsNotFound (missing : List String)
  | insufficientStock (errors : List StockError)
  | resolutionFailure
  deriving DecidableEq

/-- Failure outcomes of `cancelOrder`. -/
inductive CancelError
  | notFound
  | notAuthorized
  | invalidStatus (current : OrderStatus)
  deriving DecidableEq

/-- Failure outcomes of `updateOrderStatus`. -/
inductive UpdateError
  | notFound
  | invalidTransition (current requested : OrderStatus)
  deriving DecidableEq

/-- The `generateOrderNumber` helper, `Date.now().toString().slice(-7)`: the decimal
representation of the creation timestamp, keeping only the last 7 characters. -/
def generateOrderNumber (now : ℕ) : String :=
  let s := Nat.repr now
  s.drop (s.length - 7)

/-- The shipping-rate table of `calculateShippingFee`. -/
def shippingRates : List (String × ℚ) :=
  [("Sindh", 50), ("Punjab", 100), ("Balochistan", 150), ("Khyber Pakhtunkhwa", 120)]

/-- The `calculateShippingFee(deliveryMethod, region)` helper: store pickup is free;
delivery uses the rate table with a default of 100 for an unknown or absent
region. -/
def calculateShippingFee (deliveryMethod : DeliveryMethod) (region : Option String) : ℚ :=
  match deliveryMethod with
  | .STORE_PICKUP => 0
  | .DELIVERY =>
    match region.bind (fun r => (shippingRates.find? (fun e => e.1 == r)).map (·.2)) with
    | some fee => fee
    | none => 100

/-- One `tx.product.update` call with a relative quantity adjustment
(`increment` is `d > 0`, `decrement` is `d < 0`), addressed by unique id. -/
def applyDelta (ps : List Product) (pid : String) (d : ℤ) : List Product :=
  ps.map (fun p => if p.id == pid then { p with quantity := p.quantity + d } else p)

/-- A sequence of relative stock adjustments, as issued by the inventory
loops of `createOrder` and `cancelOrder`. -/
def applyStockDeltas (ps : List Product) (ds : List (String × ℤ)) : List Product :=
  ds.foldl (fun acc d => applyDelta acc d.1 d.2) ps

/-- The body of the `createOrder` item map: for each request item, resolve
its product among the batch-fetched active products; `none` when some
resolution fails (in the source this would be an uncaught exception). -/
def resolveAll (fetched : List Product) : List ReqItem → Option (List (Product × ReqItem))
  | [] => some []
  | i :: rest =>
    match fetched.find? (fun p => p.id == i.productId) with
    | none => none
    | some p => (resolveAll fetched rest).map (fun l => (p, i) :: l)

/-- Build one `order_items` row from a resolved product and its request item:
name, brand and unit price are snapshotted, the line subtotal is
`price * quantity`. -/
def mkOrderItem (p : Product) (i : ReqItem) : OrderItem :=
  { productId := p.id
    productName := p.name
    productBrand := p.brand
    quantity := i.quantity
    price := p.price
    subtotal := p.price * (i.quantity : ℚ) }

/-- The stock check of the item map: a violation record when the resolved
product's quantity is below the requested quantity. -/
def stockViolation (pi : Product × ReqItem) : Option StockError :=
  if pi.1.quantity < pi.2.quantity then
    some { productId := pi.1.id
           productName := pi.1.name
           requested := pi.2.quantity
           available := pi.1.quantity }
  else none

/-- The full `createOrder` request body (fields the order code reads). -/
structure CreateRequest where
  items : List ReqItem
  contactInfo : ContactInfo
  deliveryMethod : DeliveryMethod
  shippingInfo : Option ShippingInfo
  deriving DecidableEq

/-- The id list `items.map(item => item.productId)`. -/
def productIds (req : CreateRequest) : List String :=
  req.items.map (·.productId)

/-- The batch fetch `product.findMany({ id: { in: productIds }, isActive: true })`. -/
def fetchedProducts (s : State) (req : CreateRequest) : List Product :=
  s.products.filter (fun p => (productIds req).contains p.id && p.isActive)

/-- The `createOrder(req, res)` handler core: validation, batch product resolution, stock
check, totals, then the transactional order insert plus inventory decrement.
`now` is the clock reading used for the order number and `newOrderId` the
database-assigned row id. Returns the response outcome and the store state
after the call. -/
def createOrder (s : State) (userId : String) (req : CreateRequest)
    (now : ℕ) (newOrderId : String) : Except OrderError Order × State :=
  if req.items.isEmpty then
    (.error .emptyOrder, s)
  else if req.deliveryMethod == .DELIVERY && req.shippingInfo.isNone then
    (.error .shippingRequired, s)
  else
    let products := fetchedProducts s req
    if products.length ≠ (productIds req).length then
      let foundIds := products.map (·.id)
      let missingIds := (productIds req).filter (fun i => !foundIds.contains i)
      (.error (.productsNotFound missingIds), s)
    else
      match resolveAll products req.items with
      | none => (.error .resolutionFailure, s)
      | some resolved =>
        let stockErrors := resolved.filterMap stockViolation
        let orderItems := resolved.map (fun pi => mkOrderItem pi.1 pi.2)
        let subtotal := (orderItems.map (·.subtotal)).sum
        if stockErrors ≠ [] then
          (.error (.insufficientStock stockErrors), s)
        else
          let shippingFee :=
            calculateShippingFee req.deliveryMethod (req.shippingInfo.bind (·.region))
          let tax : ℚ := 0
          let total := subtotal + shippingFee + tax
          let newOrder : Order :=
            { id := newOrderId
              orderNumber := generateOrderNumber now
              userId := userId
              status := .PENDING
              subtotal := subtotal
              shippingFee := shippingFee
              tax := tax
              total := total
              contactEmail := req.contactInfo.email
              contactFirstName := req.contactInfo.firstName
              deliveryMethod := req.deliveryMethod
              items := orderItems }
          let newProducts :=
            applyStockDeltas s.products (req.items.map (fun i => (i.productId, -i.quantity)))
          (.ok newOrder, { products := newProducts, orders := s.orders ++ [newOrder] })

/-- The `cancelOrder(req, res)` handler core: lookup, ownership check, PENDING/PAID guard,
then the transactional status update plus inventory restoration. -/
def cancelOrder (s : State) (userId : String) (orderId : String) :
    Except CancelError Order × State :=
  match s.orders.find? (fun o => o.id == orderId) with
  | none => (.error .notFound, s)
  | some order =>
    if order.userId ≠ userId then
      (.error .notAuthorized, s)
    else if !([OrderStatus.PENDING, OrderStatus.PAID].contains order.status) then
      (.error (.invalidStatus order.status), s)
    else
      let newOrders := s.orders.map (fun o =>
        if o.id == orderId then { o with status := OrderStatus.CANCELLED } else o)
      let newProducts :=
        applyStockDeltas s.products (order.items.map (fun it => (it.productId, it.quantity)))
      (.ok { order with status := OrderStatus.CANCELLED },
       { products := newProducts, orders := newOrders })

/-- The `allowedTransitions` table of `updateOrderStatus`. -/
def allowedTransitions : OrderStatus → List OrderStatus
  | .PENDING => [.PAID, .CANCELLED]
  | .PAID => [.PROCESSING, .REFUNDED]
  | .PROCESSING => [.SHIPPED, .CANCELLED]
  | .SHIPPED => [.DELIVERED]
  | .DELIVERED => []
  | .CANCELLED => []
  | .REFUNDED => []

/-- The `updateOrderStatus(req, res)` handler core: lookup, transition-table guard, then the
status update. Note: no inventory adjustment on any path. -/
def updateOrderStatus (s : State) (orderId : String) (newStatus : OrderStatus) :
    Except UpdateError Order × State :=
  match s.orders.find? (fun o => o.id == orderId) with
  | none => (.error .notFound, s)
  | some order =>
    if !((allowedTransitions order.status).contains newStatus) then
      (.error (.invalidTransition order.status newStatus), s)
    else
      (.ok { order with status := newStatus },
       { s with orders := s.orders.map (fun o =>
          if o.id == orderId then { o with status := newStatus } else o) })

/-- Lookup of a product row by id. -/
def findProduct (s : State) (pid : String) : Option Product :=
  s.products.find? (fun p => p.id == pid)

/-- The stock quantity of a product, when the row exists. -/
def productQty (s : State) (pid : String) : Option ℤ :=
  (findProduct s pid).map (·.quantity)

/-- Lookup of an order row by id. -/
def findOrder (s : State) (oid : String) : Option Order :=
  s.orders.find? (fun o => o.id == oid)

/-- Lookup of an active product row by id, the per-id reading of the
`findMany({ id: { in: productIds }, isActive: true })` batch query. -/
def findActive (s : State) (pid : String) : Option Product :=
  s.products.find? (fun p => p.id == pid && p.isActive)

/-- The batch-resolution function of `createOrder`, as a per-id lookup: the
`products.find(p => p.id === item.productId)` read over the filtered fetch. -/
def resolveFor (s : State) (req : CreateRequest) (pid : String) : Option Product :=
  (fetchedProducts s req).find? (fun p => p.id == pid)

/-! ### Helper lemmas about the store operations -/

/-- The net quantity adjustment a delta list applies to a given product id. -/
def deltaTotal (ds : List (String × ℤ)) (pid : String) : ℤ :=
  ((ds.filter (fun d => d.1 == pid)).map (·.2)).sum

theorem deltaTotal_nil (pid : String) : deltaTotal [] pid = 0 := rfl

theorem deltaTotal_cons (d : String × ℤ) (ds : List (String × ℤ)) (pid : String) :
    deltaTotal (d :: ds) pid = (if d.1 = pid then d.2 else 0) + deltaTotal ds pid := by
  by_cases h : d.1 = pid <;>
    simp [deltaTotal, List.filter_cons, h]

/-- A delta sequence acts on each product independently: the final table is a
pointwise map adding each product's net adjustment. -/
theorem applyStockDeltas_eq_map (ds : List (String × ℤ)) (ps : List Product) :
    applyStockDeltas ps ds =
      ps.map (fun p => { p with quantity := p.quantity + deltaTotal ds p.id }) := by
  induction ds generalizing ps with
  | nil =>
    simp only [applyStockDeltas, List.foldl_nil, deltaTotal_nil, add_zero]
    exact (List.map_id ps).symm
  | cons d ds ih =>
    show applyStockDeltas (applyDelta ps d.1 d.2) ds = _
    rw [ih, applyDelta, List.map_map]
    refine List.map_congr_left (fun p _ => ?_)
    simp only [Function.comp_apply, beq_iff_eq]
    by_cases h : p.id = d.1
    · simp [if_pos h, deltaTotal_cons, h.symm, add_assoc]
    · have h2 : ¬ d.1 = p.id := fun he => h he.symm
      rw [if_neg h, deltaTotal_cons, if_neg h2, zero_add]

/-- Lookup by `find?` commutes with mapping a function that does not change the
predicate's verdict. -/
theorem find?_map_eq {α : Type} (l : List α) (f : α → α) (q : α → Bool)
    (hf : ∀ x, q (f x) = q x) : (l.map f).find? q = (l.find? q).map f := by
  induction l with
  | nil => rfl
  | cons a t ih =>
    rw [List.map_cons]
    by_cases hq : q a
    · rw [List.find?_cons_of_pos t hq, List.find?_cons_of_pos (t.map f) ((hf a).trans hq)]
      simp
    · rw [List.find?_cons_of_neg t hq,
        List.find?_cons_of_neg (t.map f) (by rw [hf a]; exact hq), ih]

/-- Looking a product up after a delta sequence: same row, quantity adjusted
by the id's net delta. -/
theorem find?_applyStockDeltas (ps : List Product) (ds : List (String × ℤ)) (pid : String) :
    (applyStockDeltas ps ds).find? (fun p => p.id == pid) =
      (ps.find? (fun p => p.id == pid)).map
        (fun p => { p with quantity := p.quantity + deltaTotal ds p.id }) := by
  rw [applyStockDeltas_eq_map]
  exact find?_map_eq ps _ _ (fun _ => rfl)

/-- In a list with no duplicate keys, filtering by the key of a member
returns exactly that member. -/
theorem filter_key_eq_single {α : Type} (key : α → String) (l : List α) (i : α)
    (hnd : (l.map key).Nodup) (hi : i ∈ l) :
    l.filter (fun j => key j == key i) = [i] := by
  induction l with
  | nil => cases hi
  | cons a t ih =>
    rw [List.map_cons, List.nodup_cons] at hnd
    rcases List.mem_cons.mp hi with rfl | hit
    · have ht : t.filter (fun j => key j == key i) = [] := by
        refine List.filter_eq_nil_iff.mpr (fun b hb hkb => ?_)
        exact hnd.1 (by
          rw [beq_iff_eq] at hkb
          exact hkb ▸ List.mem_map_of_mem key hb)
      simp [List.filter_cons, ht]
    · have hne : ¬ (key a = key i) := fun he =>
        hnd.1 (he ▸ List.mem_map_of_mem key hit)
      simp only [List.filter_cons, beq_iff_eq, if_neg hne]
      exact ih hnd.2 hit

/-- A successful `resolveAll` pairs each request item, in order, with some
fetched product. -/
theorem resolveAll_map_snd (fetched : List Product) :
    ∀ (items : List ReqItem) (resolved : List (Product × ReqItem)),
      resolveAll fetched items = some resolved → resolved.map (·.2) = items := by
  intro items
  induction items with
  | nil => intro resolved h; cases h; rfl
  | cons i rest ih =>
    intro resolved h
    unfold resolveAll at h
    cases hf : fetched.find? (fun p => p.id == i.productId) with
    | none => rw [hf] at h; cases h
    | some p =>
      rw [hf] at h
      cases hr : resolveAll fetched rest with
      | none => rw [hr] at h; cases h
      | some l => rw [hr] at h; cases h; simpa using ih l hr

/-- Every pair produced by `resolveAll` is the `find?`-resolution of its own
request item. -/
theorem resolveAll_mem_find? (fetched : List Product) :
    ∀ (items : List ReqItem) (resolved : List (Product × ReqItem)),
      resolveAll fetched items = some resolved →
      ∀ pr ∈ resolved, fetched.find? (fun p => p.id == pr.2.productId) = some pr.1 := by
  intro items
  induction items with
  | nil => intro resolved h; cases h; intro pr hpr; cases hpr
  | cons i rest ih =>
    intro resolved h
    unfold resolveAll at h
    cases hf : fetched.find? (fun p => p.id == i.productId) with
    | none => rw [hf] at h; cases h
    | some p =>
      rw [hf] at h
      cases hr : resolveAll fetched rest with
      | none => rw [hr] at h; cases h
      | some l =>
        rw [hr] at h; cases h
        intro pr hpr
        rcases List.mem_cons.mp hpr with rfl | hl
        · exact hf
        · exact ih l hr pr hl

/-- Resolution by `resolveAll` succeeds as soon as every item's product resolves. -/
theorem resolveAll_isSome (fetched : List Product) (items : List ReqItem)
    (h : ∀ i ∈ items, (fetched.find? (fun p => p.id == i.productId)).isSome) :
    (resolveAll fetched items).isSome := by
  induction items with
  | nil => rfl
  | cons i rest ih =>
    unfold resolveAll
    cases hf : fetched.find? (fun p => p.id == i.productId) with
    | none => exact absurd (hf ▸ h i (List.mem_cons_self i rest)) (by simp)
    | some p =>
      cases hr : resolveAll fetched rest with
      | none => exact absurd (hr ▸ ih (fun j hj => h j (List.mem_cons_of_mem i hj))) (by simp)
      | some l => simp

/-- Membership in the batch fetch: a row of the product table whose id is
requested and which is active. -/
theorem mem_fetched (s : State) (req : CreateRequest) (p : Product) :
    p ∈ fetchedProducts s req ↔
      p ∈ s.products ∧ p.id ∈ productIds req ∧ p.isActive = true := by
  simp only [fetchedProducts, List.mem_filter, Bool.and_eq_true, List.elem_iff]

/-- The ids of the fetched rows, without duplicates (primary-key invariant
of the product table). -/
theorem fetched_ids_nodup (s : State) (req : CreateRequest)
    (hnd : (s.products.map (·.id)).Nodup) :
    ((fetchedProducts s req).map (·.id)).Nodup :=
  hnd.sublist ((List.filter_sublist s.products).map (·.id))

/-- Every fetched id was requested. -/
theorem fetched_ids_subset (s : State) (req : CreateRequest) :
    ∀ x ∈ (fetchedProducts s req).map (·.id), x ∈ productIds req := by
  intro x hx
  rcases List.mem_map.mp hx with ⟨p, hp, rfl⟩
  exact ((mem_fetched s req p).mp hp).2.1

/-- A requested id occurs among the fetched ids exactly when it resolves to
an active product row. -/
theorem mem_fetched_ids_iff (s : State) (req : CreateRequest) (x : String)
    (hx : x ∈ productIds req) :
    x ∈ (fetchedProducts s req).map (·.id) ↔ (findActive s x).isSome := by
  constructor
  · intro hmem
    rcases List.mem_map.mp hmem with ⟨p, hp, rfl⟩
    rcases (mem_fetched s req p).mp hp with ⟨hps, _, hact⟩
    exact List.find?_isSome.mpr ⟨p, hps, by simp [hact]⟩
  · intro hsome
    rcases List.find?_isSome.mp hsome with ⟨p, hps, hpred⟩
    rw [Bool.and_eq_true, beq_iff_eq] at hpred
    refine List.mem_map.mpr ⟨p, (mem_fetched s req p).mpr ⟨hps, ?_, hpred.2⟩, hpred.1⟩
    rw [hpred.1]; exact hx

/-- If the batch fetch returned as many rows as there are requested ids,
the requested ids are pairwise distinct. -/
theorem productIds_nodup_of_length_eq (s : State) (req : CreateRequest)
    (hnd : (s.products.map (·.id)).Nodup)
    (hlen : (fetchedProducts s req).length = (productIds req).length) :
    (productIds req).Nodup := by
  have h1 : ((fetchedProducts s req).map (·.id)).Nodup := fetched_ids_nodup s req hnd
  have hsub : ((fetchedProducts s req).map (·.id)).toFinset ⊆ (productIds req).toFinset :=
    fun x hx => List.mem_toFinset.mpr (fetched_ids_subset s req x (List.mem_toFinset.mp hx))
  have hchain : (productIds req).length ≤ (productIds req).dedup.length := by
    calc (productIds req).length
        = ((fetchedProducts s req).map (·.id)).length := by rw [List.length_map, hlen]
      _ = ((fetchedProducts s req).map (·.id)).toFinset.card :=
          (List.toFinset_card_of_nodup h1).symm
      _ ≤ (productIds req).toFinset.card := Finset.card_le_card hsub
      _ = (productIds req).dedup.length := List.card_toFinset _
  have heq : (productIds req).dedup.length = (productIds req).length :=
    le_antisymm ((List.dedup_sublist _).length_le) hchain
  exact List.dedup_eq_self.mp ((List.dedup_sublist _).eq_of_length heq)

/-- If the batch fetch returned as many rows as there are requested ids,
every requested id resolves within the fetch. -/
theorem resolveFor_isSome_of_length_eq (s : State) (req : CreateRequest)
    (hnd : (s.products.map (·.id)).Nodup)
    (hlen : (fetchedProducts s req).length = (productIds req).length) :
    ∀ pid ∈ productIds req, ((fetchedProducts s req).find? (fun p => p.id == pid)).isSome := by
  have h1 : ((fetchedProducts s req).map (·.id)).Nodup := fetched_ids_nodup s req hnd
  have hsub : ((fetchedProducts s req).map (·.id)).toFinset ⊆ (productIds req).toFinset :=
    fun x hx => List.mem_toFinset.mpr (fetched_ids_subset s req x (List.mem_toFinset.mp hx))
  have hcard : (productIds req).toFinset.card ≤
      ((fetchedProducts s req).map (·.id)).toFinset.card := by
    calc (productIds req).toFinset.card
        ≤ (productIds req).length := List.toFinset_card_le _
      _ = ((fetchedProducts s req).map (·.id)).length := by rw [List.length_map, hlen]
      _ = ((fetchedProducts s req).map (·.id)).toFinset.card :=
          (List.toFinset_card_of_nodup h1).symm
  have hset : ((fetchedProducts s req).map (·.id)).toFinset = (productIds req).toFinset :=
    Finset.eq_of_subset_of_card_le hsub hcard
  intro pid hpid
  have : pid ∈ (fetchedProducts s req).map (·.id) := by
    rw [← List.mem_toFinset, hset, List.mem_toFinset]; exact hpid
  rcases List.mem_map.mp this with ⟨p, hp, rfl⟩
  exact List.find?_isSome.mpr ⟨p, hp, by simp⟩

/-- If some requested id has no active row, the batch fetch is strictly
short. -/
theorem fetched_length_lt (s : State) (req : CreateRequest) (pid0 : String)
    (hnd : (s.products.map (·.id)).Nodup)
    (hpid0 : pid0 ∈ productIds req) (hmiss : findActive s pid0 = none) :
    (fetchedProducts s req).length < (productIds req).length := by
  have h1 : ((fetchedProducts s req).map (·.id)).Nodup := fetched_ids_nodup s req hnd
  have hnot : pid0 ∉ (fetchedProducts s req).map (·.id) := by
    intro hc
    have := (mem_fetched_ids_iff s req pid0 hpid0).mp hc
    rw [hmiss] at this
    cases this
  have hsub : ((fetchedProducts s req).map (·.id)).toFinset ⊆
      (productIds req).toFinset.erase pid0 := by
    intro x hx
    have hxl := List.mem_toFinset.mp hx
    refine Finset.mem_erase.mpr ⟨fun he => hnot (he ▸ hxl), ?_⟩
    exact List.mem_toFinset.mpr (fetched_ids_subset s req x hxl)
  calc (fetchedProducts s req).length
      = ((fetchedProducts s req).map (·.id)).length := (List.length_map _ _).symm
    _ = ((fetchedProducts s req).map (·.id)).toFinset.card :=
        (List.toFinset_card_of_nodup h1).symm
    _ ≤ ((productIds req).toFinset.erase pid0).card := Finset.card_le_card hsub
    _ < (productIds req).toFinset.card :=
        Finset.card_erase_lt_of_mem (List.mem_toFinset.mpr hpid0)
    _ ≤ (productIds req).length := List.toFinset_card_le _

/-- If the requested ids contain a duplicate, the batch fetch is strictly
short. -/
theorem fetched_length_lt_of_dup (s : State) (req : CreateRequest)
    (hnd : (s.products.map (·.id)).Nodup) (hdup : ¬ (productIds req).Nodup) :
    (fetchedProducts s req).length < (productIds req).length := by
  have h1 : ((fetchedProducts s req).map (·.id)).Nodup := fetched_ids_nodup s req hnd
  have hsub : ((fetchedProducts s req).map (·.id)).toFinset ⊆ (productIds req).toFinset :=
    fun x hx => List.mem_toFinset.mpr (fetched_ids_subset s req x (List.mem_toFinset.mp hx))
  have hlt : (productIds req).dedup.length < (productIds req).length := by
    rcases Nat.lt_or_ge (productIds req).dedup.length (productIds req).length with h | h
    · exact h
    · exact absurd
        (List.dedup_eq_self.mp ((List.dedup_sublist _).eq_of_length
          (le_antisymm ((List.dedup_sublist _).length_le) h)))
        hdup
  calc (fetchedProducts s req).length
      = ((fetchedProducts s req).map (·.id)).length := (List.length_map _ _).symm
    _ = ((fetchedProducts s req).map (·.id)).toFinset.card :=
        (List.toFinset_card_of_nodup h1).symm
    _ ≤ (productIds req).toFinset.card := Finset.card_le_card hsub
    _ = (productIds req).dedup.length := List.card_toFinset _
    _ < (productIds req).length := hlt

/-- Inversion of a successful `createOrder`: the validations passed, the
order's fields are the computed ones, and the store received the new order
together with the inventory decrements. -/
theorem createOrder_ok (s : State) (uid : String) (req : CreateRequest) (now : ℕ)
    (oid : String) (order : Order) (s2 : State)
    (h : createOrder s uid req now oid = (.ok order, s2)) :
    ∃ resolved, resolveAll (fetchedProducts s req) req.items = some resolved ∧
      req.items.isEmpty = false ∧
      (fetchedProducts s req).length = (productIds req).length ∧
      resolved.filterMap stockViolation = [] ∧
      order.items = resolved.map (fun pr => mkOrderItem pr.1 pr.2) ∧
      order.subtotal = (order.items.map (·.subtotal)).sum ∧
      order.tax = 0 ∧
      order.shippingFee =
        calculateShippingFee req.deliveryMethod (req.shippingInfo.bind (·.region)) ∧
      order.total = order.subtotal + order.shippingFee + order.tax ∧
      order.status = .PENDING ∧
      order.orderNumber = generateOrderNumber now ∧
      s2 = { products :=
               applyStockDeltas s.products (req.items.map (fun i => (i.productId, -i.quantity))),
             orders := s.orders ++ [order] } := by
  simp only [createOrder] at h
  split at h
  · exact absurd h (by simp)
  · split at h
    · exact absurd h (by simp)
    · split at h
      · exact absurd h (by simp)
      · next hlen =>
        split at h
        · exact absurd h (by simp)
        · next resolved hres =>
          split at h
          · exact absurd h (by simp)
          · next hstock =>
            rw [Prod.mk.injEq, Except.ok.injEq] at h
            obtain ⟨horder, hstate⟩ := h
            refine ⟨resolved, hres, by simp_all, Decidable.not_not.mp hlen,
              Decidable.not_not.mp hstock, ?_⟩
            subst horder
            refine ⟨rfl, rfl, rfl, rfl, rfl, rfl, rfl, hstate.symm⟩

/-- When the key list has no duplicates, the net delta a keyed map applies
to a member's key is exactly that member's value. -/
theorem deltaTotal_map_single {α : Type} (key : α → String) (val : α → ℤ)
    (l : List α) (i : α) (hnd : (l.map key).Nodup) (hi : i ∈ l) :
    deltaTotal (l.map (fun j => (key j, val j))) (key i) = val i := by
  unfold deltaTotal
  rw [List.filter_map]
  have hfil : l.filter ((fun d : String × ℤ => d.1 == key i) ∘ (fun j => (key j, val j))) =
      l.filter (fun j => key j == key i) := rfl
  rw [hfil, filter_key_eq_single key l i hnd hi]
  simp

/-! ### Sample data for concrete runs (the §8 scenario of the spec) -/

/-- Product P: stock 5, price 10, active. -/
def sampleProduct : Product :=
  { id := "p1", name := "Protein", brand := "Br", price := 10, quantity := 5, isActive := true }

def sampleContact : ContactInfo :=
  { firstName := "Ada", lastName := "L", phone := "0301", email := "ada@example.com" }

/-- A store holding just product P and no orders. -/
def sampleState : State := { products := [sampleProduct], orders := [] }

/-- An order request for 3 units of P with store pickup. -/
def sampleRequest : CreateRequest :=
  { items := [{ productId := "p1", quantity := 3 }]
    contactInfo := sampleContact
    deliveryMethod := .STORE_PICKUP
    shippingInfo := none }

/-- The order the sample request creates at timestamp 1696500000000. -/
def sampleOrder : Order :=
  { id := "o1", orderNumber := "0000000", userId := "u1", status := .PENDING,
    subtotal := 30, shippingFee := 0, tax := 0, total := 30,
    contactEmail := "ada@example.com", contactFirstName := "Ada",
    deliveryMethod := .STORE_PICKUP,
    items := [{ productId := "p1", productName := "Protein", productBrand := "Br",
                quantity := 3, price := 10, subtotal := 30 }] }

theorem sample_createOrder_eq :
    createOrder sampleState "u1" sampleRequest 1696500000000 "o1" =
      (.ok sampleOrder,
       { products := [{ sampleProduct with quantity := 2 }], orders := [sampleOrder] }) := by
  norm_num [createOrder, sampleState, sampleRequest, sampleProduct, sampleContact, sampleOrder,
    fetchedProducts, productIds, resolveAll, mkOrderItem, stockViolation,
    applyStockDeltas, applyDelta, calculateShippingFee, generateOrderNumber]
  decide

/-- C3: every successfully created order satisfies the monetary invariants,
and each line's price is the price captured in the validation batch lookup. -/
theorem createOrder_monetary_invariants (s : State) (uid : String) (req : CreateRequest)
    (now : ℕ) (oid : String) (order : Order)
    (h : (createOrder s uid req now oid).1 = .ok order) :
    order.total = order.subtotal + order.shippingFee + order.tax ∧
    order.tax = 0 ∧
    (order.items.map (·.subtotal)).sum = order.subtotal ∧
    ∀ it ∈ order.items, it.subtotal = it.price * (it.quantity : ℚ) ∧
      ∃ p, resolveFor s req it.productId = some p ∧ it.price = p.price := by
  rcases hco : createOrder s uid req now oid with ⟨r, s2⟩
  rw [hco] at h
  cases h
  obtain ⟨resolved, hres, -, -, -, hitems, hsub, htax, -, htot, -, -, -⟩ :=
    createOrder_ok s uid req now oid order s2 hco
  refine ⟨htot, htax, hsub.symm, ?_⟩
  intro it hit
  rw [hitems] at hit
  rcases List.mem_map.mp hit with ⟨pr, hpr, rfl⟩
  have hfind := resolveAll_mem_find? (fetchedProducts s req) req.items resolved hres pr hpr
  have hid : pr.1.id = pr.2.productId := by
    have := List.find?_some hfind
    rwa [beq_iff_eq] at this
  refine ⟨rfl, pr.1, ?_, rfl⟩
  show (fetchedProducts s req).find? (fun p => p.id == (mkOrderItem pr.1 pr.2).productId) = some pr.1
  have hpid : (mkOrderItem pr.1 pr.2).productId = pr.2.productId := hid
  rw [hpid]
  exact hfind

/-- Witness for C3 at the concrete §8 scenario. -/
theorem createOrder_monetary_invariants_witness :
    (createOrder sampleState "u1" sampleRequest 1696500000000 "o1").1 = .ok sampleOrder ∧
    sampleOrder.total = sampleOrder.subtotal + sampleOrder.shippingFee + sampleOrder.tax ∧
    sampleOrder.tax = 0 := by
  have h : (createOrder sampleState "u1" sampleRequest 1696500000000 "o1").1 = .ok sampleOrder := by
    rw [sample_createOrder_eq]
  have hmain := createOrder_monetary_invariants sampleState "u1" sampleRequest
    1696500000000 "o1" sampleOrder h
  exact ⟨h, hmain.1, hmain.2.1⟩

/-- C2: a successful creation decrements each ordered product's stock by the
ordered quantity; an insufficient-stock failure leaves the store untouched
and its error list contains every violating item, not only the first; and
whenever some item violates stock (after the resolution stage passed) the
call does fail with the insufficient-stock error. -/
theorem createOrder_stock_allOrNothing (s : State) (uid : String) (req : CreateRequest)
    (now : ℕ) (oid : String) (hnd : (s.products.map (·.id)).Nodup) :
    (∀ order, (createOrder s uid req now oid).1 = .ok order →
       ∀ i ∈ req.items,
         productQty (createOrder s uid req now oid).2 i.productId =
           (productQty s i.productId).map (fun q => q - i.quantity)) ∧
    (∀ errs, (createOrder s uid req now oid).1 = .error (.insufficientStock errs) →
       (createOrder s uid req now oid).2 = s ∧
       ∀ i ∈ req.items, ∀ p, resolveFor s req i.productId = some p →
         p.quantity < i.quantity →
         ({ productId := p.id, productName := p.name, requested := i.quantity,
            available := p.quantity } : StockError) ∈ errs) ∧
    (∀ (hship : (req.deliveryMethod == DeliveryMethod.DELIVERY && req.shippingInfo.isNone) = false)
       (hlen : (fetchedProducts s req).length = (productIds req).length),
       (∃ i ∈ req.items, ∃ p, resolveFor s req i.productId = some p ∧ p.quantity < i.quantity) →
       ∃ errs, (createOrder s uid req now oid).1 = Except.error (.insufficientStock errs)) := by
  refine ⟨?_, ?_, ?_⟩
  · intro order h i hi
    rcases hco : createOrder s uid req now oid with ⟨r, s2⟩
    rw [hco] at h
    have hr : r = Except.ok order := h
    subst hr
    obtain ⟨resolved, hres, -, hlen, -, -, -, -, -, -, -, -, hstate⟩ :=
      createOrder_ok s uid req now oid order s2 hco
    have hnodup_pids : (productIds req).Nodup := productIds_nodup_of_length_eq s req hnd hlen
    rw [hstate]
    unfold productQty findProduct
    show ((applyStockDeltas s.products
        (req.items.map (fun i => (i.productId, -i.quantity)))).find?
          (fun p => p.id == i.productId)).map (·.quantity) = _
    rw [find?_applyStockDeltas]
    cases hfp : s.products.find? (fun p => p.id == i.productId) with
    | none => rfl
    | some p =>
      have hpid : p.id = i.productId := by
        have := List.find?_some hfp
        rwa [beq_iff_eq] at this
      simp only [Option.map_map, Option.map_some']
      have hdt : deltaTotal (req.items.map (fun j => (j.productId, -j.quantity)))
          i.productId = -i.quantity :=
        deltaTotal_map_single (fun j : ReqItem => j.productId) (fun j => -j.quantity)
          req.items i hnodup_pids hi
      rw [hpid, hdt, ← sub_eq_add_neg]
  · intro errs h
    rcases hco : createOrder s uid req now oid with ⟨r, s2⟩
    rw [hco] at h
    have hr : r = Except.error (OrderError.insufficientStock errs) := h
    subst hr
    simp only [createOrder] at hco
    split at hco
    · exact absurd hco (by simp)
    · split at hco
      · exact absurd hco (by simp)
      · split at hco
        · exact absurd hco (by simp)
        · split at hco
          · exact absurd hco (by simp)
          · next resolved hres =>
            split at hco
            · next hne_errs =>
              rw [Prod.mk.injEq, Except.error.injEq, OrderError.insufficientStock.injEq] at hco
              obtain ⟨herrs, hs2⟩ := hco
              refine ⟨hs2.symm, ?_⟩
              intro i hi p hp hlt
              have hsnd := resolveAll_map_snd _ req.items resolved hres
              have hmem : i ∈ resolved.map (·.2) := hsnd ▸ hi
              rcases List.mem_map.mp hmem with ⟨pr, hpr, hpr2⟩
              have hfind := resolveAll_mem_find? _ req.items resolved hres pr hpr
              rw [hpr2] at hfind
              have hp1 : pr.1 = p := Option.some.inj (hfind.symm.trans hp)
              rw [← herrs]
              refine List.mem_filterMap.mpr ⟨pr, hpr, ?_⟩
              rw [stockViolation, if_pos (by rw [hp1, hpr2]; exact hlt)]
              rw [hp1, hpr2]
            · exact absurd hco (by simp)
  · rintro hship hlen ⟨i, hi, p, hp, hlt⟩
    have hne : req.items.isEmpty = false := by
      cases hie : req.items.isEmpty
      · rfl
      · rw [List.isEmpty_iff] at hie
        rw [hie] at hi
        cases hi
    have hall : ∀ j ∈ req.items,
        ((fetchedProducts s req).find? (fun q => q.id == j.productId)).isSome := fun j hj =>
      resolveFor_isSome_of_length_eq s req hnd hlen j.productId
        (List.mem_map_of_mem _ hj)
    have hres_some := resolveAll_isSome _ req.items hall
    rcases hres_eq : resolveAll (fetchedProducts s req) req.items with - | resolved
    · rw [hres_eq] at hres_some; cases hres_some
    have hsnd := resolveAll_map_snd _ req.items resolved hres_eq
    have hmem : i ∈ resolved.map (·.2) := hsnd ▸ hi
    rcases List.mem_map.mp hmem with ⟨pr, hpr, hpr2⟩
    have hfind := resolveAll_mem_find? _ req.items resolved hres_eq pr hpr
    rw [hpr2] at hfind
    have hp1 : pr.1 = p := Option.some.inj (hfind.symm.trans hp)
    have hviol : stockViolation pr =
        some { productId := pr.1.id, productName := pr.1.name,
               requested := pr.2.quantity, available := pr.1.quantity } := by
      rw [stockViolation, if_pos (by rw [hp1, hpr2]; exact hlt)]
    have hne_errs : resolved.filterMap stockViolation ≠ [] := by
      intro h0
      have hm := List.mem_filterMap.mpr ⟨pr, hpr, hviol⟩
      rw [h0] at hm
      cases hm
    refine ⟨resolved.filterMap stockViolation, ?_⟩
    simp only [createOrder]
    rw [if_neg (by rw [hne]; exact Bool.false_ne_true), if_neg (by rw [hship]; exact Bool.false_ne_true),
      if_neg (fun hcon => hcon hlen), hres_eq]
    simp only [if_pos hne_errs]

/-- Witness for C2: creating the sample order takes product P from stock 5
to stock 2 — a decrement by exactly the ordered quantity 3. -/
theorem createOrder_stock_allOrNothing_witness :
    productQty (createOrder sampleState "u1" sampleRequest 1696500000000 "o1").2 "p1" =
      (productQty sampleState "p1").map (fun q => q - (3 : ℤ)) :=
  (createOrder_stock_allOrNothing sampleState "u1" sampleRequest 1696500000000 "o1"
      (by decide)).1
    sampleOrder (by rw [sample_createOrder_eq]) { productId := "p1", quantity := 3 } (by decide)

/-! ### Order status transitions -/

/-- The edges of the §4.1 transition table, enumerated. -/
def transitionPairs : List (OrderStatus × OrderStatus) :=
  [(.PENDING, .PAID), (.PENDING, .CANCELLED),
   (.PAID, .PROCESSING), (.PAID, .REFUNDED),
   (.PROCESSING, .SHIPPED), (.PROCESSING, .CANCELLED),
   (.SHIPPED, .DELIVERED)]

/-- Updating the status of one order row leaves `find?`-by-id in step with
the original table. -/
theorem find?_orders_update (l : List Order) (oid : String) (st : OrderStatus) :
    (l.map (fun o => if o.id == oid then { o with status := st } else o)).find?
        (fun o => o.id == oid) =
      (l.find? (fun o => o.id == oid)).map
        (fun o => if o.id == oid then { o with status := st } else o) := by
  refine find?_map_eq l _ _ (fun x => ?_)
  by_cases hx : (x.id == oid) = true
  · rw [if_pos hx]
  · rw [if_neg hx]

/-- C4: `updateOrderStatus` realises exactly the transition table — it
succeeds precisely on the enumerated edges and otherwise fails with the
error naming both statuses, leaving the store untouched. -/
theorem updateOrderStatus_transitions (s : State) (oid : String) (st : OrderStatus)
    (order : Order) (hfind : findOrder s oid = some order) :
    (∀ a b : OrderStatus, b ∈ allowedTransitions a ↔ (a, b) ∈ transitionPairs) ∧
    (st ∈ allowedTransitions order.status →
       ∃ o2, (updateOrderStatus s oid st).1 = .ok o2 ∧ o2.status = st ∧ o2.id = order.id) ∧
    (st ∉ allowedTransitions order.status →
       updateOrderStatus s oid st = (.error (.invalidTransition order.status st), s)) := by
  unfold findOrder at hfind
  refine ⟨fun a b => by cases a <;> cases b <;> decide, ?_, ?_⟩
  · intro hmem
    have hc : (allowedTransitions order.status).contains st = true := List.elem_iff.mpr hmem
    refine ⟨{ order with status := st }, ?_, rfl, rfl⟩
    simp only [updateOrderStatus, hfind, hc, Bool.not_true]
    rw [if_neg (by exact Bool.false_ne_true)]
  · intro hmem
    have hc : (allowedTransitions order.status).contains st = false :=
      Bool.eq_false_iff.mpr (fun hcon => hmem (List.elem_iff.mp hcon))
    simp only [updateOrderStatus, hfind, hc, Bool.not_false]
    rw [if_pos trivial]

/-- An order sitting at status PAID. -/
def paidOrder : Order :=
  { id := "o2", orderNumber := "1234567", userId := "u1", status := .PAID,
    subtotal := 30, shippingFee := 0, tax := 0, total := 30,
    contactEmail := "ada@example.com", contactFirstName := "Ada",
    deliveryMethod := .STORE_PICKUP,
    items := [{ productId := "p1", productName := "Protein", productBrand := "Br",
                quantity := 3, price := 10, subtotal := 30 }] }

/-- A store holding product P and the PAID order. -/
def stateWithPaid : State := { products := [sampleProduct], orders := [paidOrder] }

/-- Witness for C4 at the §8 scenario: PAID → SHIPPED is rejected naming
both statuses and the store is unchanged. -/
theorem updateOrderStatus_transitions_witness :
    updateOrderStatus stateWithPaid "o2" .SHIPPED =
      (.error (.invalidTransition .PAID .SHIPPED), stateWithPaid) :=
  (updateOrderStatus_transitions stateWithPaid "o2" .SHIPPED paidOrder (by decide)).2.2
    (by decide)

/-- An order sitting at status PROCESSING whose single item holds 2 units of
product P (P's live stock back at 5). -/
def processingOrder : Order :=
  { id := "o3", orderNumber := "7654321", userId := "u1", status := .PROCESSING,
    subtotal := 20, shippingFee := 0, tax := 0, total := 20,
    contactEmail := "ada@example.com", contactFirstName := "Ada",
    deliveryMethod := .STORE_PICKUP,
    items := [{ productId := "p1", productName := "Protein", productBrand := "Br",
                quantity := 2, price := 10, subtotal := 20 }] }

def stateProcessing : State := { products := [sampleProduct], orders := [processingOrder] }

/-- C1 evidence: the admin transition PROCESSING → CANCELLED succeeds but
leaves product P's stock at 5 — `updateOrderStatus` performs no inventory
restoration on any path, unlike `cancelOrder`. -/
theorem updateOrderStatus_cancel_no_restock :
    (updateOrderStatus stateProcessing "o3" .CANCELLED).1 =
      .ok { processingOrder with status := .CANCELLED } ∧
    productQty stateProcessing "p1" = some 5 ∧
    productQty (updateOrderStatus stateProcessing "o3" .CANCELLED).2 "p1" = some 5 := by
  decide

/-- C5: an owner's `cancelOrder` from PENDING or PAID sets the status to
CANCELLED and restores each item's quantity to its product exactly once; a
second call fails naming the CANCELLED status and changes nothing; from any
other status the call fails naming the current status and changes nothing. -/
theorem cancelOrder_behavior (s : State) (uid oid : String) (order : Order)
    (hfind : findOrder s oid = some order) (hown : order.userId = uid)
    (hnd : (order.items.map (·.productId)).Nodup) :
    ((order.status = .PENDING ∨ order.status = .PAID) →
       (cancelOrder s uid oid).1 = .ok { order with status := .CANCELLED } ∧
       (findOrder (cancelOrder s uid oid).2 oid).map (·.status) =
         some OrderStatus.CANCELLED ∧
       (∀ it ∈ order.items,
          productQty (cancelOrder s uid oid).2 it.productId =
            (productQty s it.productId).map (fun q => q + it.quantity)) ∧
       cancelOrder (cancelOrder s uid oid).2 uid oid =
         (.error (.invalidStatus .CANCELLED), (cancelOrder s uid oid).2)) ∧
    (¬(order.status = .PENDING ∨ order.status = .PAID) →
       cancelOrder s uid oid = (.error (.invalidStatus order.status), s)) := by
  unfold findOrder at hfind
  have hid := List.find?_some hfind
  have hnotne : ¬(order.userId ≠ uid) := fun hne => hne hown
  constructor
  · intro hstat
    have hc : ([OrderStatus.PENDING, OrderStatus.PAID].contains order.status) = true := by
      rcases hstat with h | h <;> rw [h] <;> rfl
    have hpair : cancelOrder s uid oid =
        (.ok { order with status := OrderStatus.CANCELLED },
         { products := applyStockDeltas s.products
             (order.items.map (fun it => (it.productId, it.quantity))),
           orders := s.orders.map (fun o =>
             if o.id == oid then { o with status := OrderStatus.CANCELLED } else o) }) := by
      simp only [cancelOrder, hfind, hc, Bool.not_true]
      rw [if_neg hnotne, if_neg (by exact Bool.false_ne_true)]
    have hfind2 : (s.orders.map (fun o =>
        if o.id == oid then { o with status := OrderStatus.CANCELLED } else o)).find?
          (fun o => o.id == oid) = some { order with status := OrderStatus.CANCELLED } := by
      rw [find?_orders_update, hfind]
      simp only [Option.map_some']
      rw [if_pos hid]
    refine ⟨by rw [hpair], ?_, ?_, ?_⟩
    · rw [hpair]
      unfold findOrder
      show ((s.orders.map (fun o =>
          if o.id == oid then { o with status := OrderStatus.CANCELLED } else o)).find?
            (fun o => o.id == oid)).map (·.status) = some OrderStatus.CANCELLED
      rw [hfind2]
      rfl
    · intro it hit
      rw [hpair]
      unfold productQty findProduct
      show ((applyStockDeltas s.products
          (order.items.map (fun it => (it.productId, it.quantity)))).find?
            (fun p => p.id == it.productId)).map (·.quantity) = _
      rw [find?_applyStockDeltas]
      cases hfp : s.products.find? (fun p => p.id == it.productId) with
      | none => rfl
      | some p =>
        have hpid : p.id = it.productId := by
          have := List.find?_some hfp
          rwa [beq_iff_eq] at this
        simp only [Option.map_map, Option.map_some']
        have hdt : deltaTotal (order.items.map (fun j => (j.productId, j.quantity)))
            it.productId = it.quantity :=
          deltaTotal_map_single (fun j : OrderItem => j.productId) (fun j => j.quantity)
            order.items it hnd hit
        rw [hpid, hdt]
    · rw [hpair]
      have hnotne2 :
          ¬(({ order with status := OrderStatus.CANCELLED } : Order).userId ≠ uid) := hnotne
      simp only [cancelOrder, hfind2]
      rw [if_neg hnotne2,
        if_pos (show (!([OrderStatus.PENDING, OrderStatus.PAID].contains
          ({ order with status := OrderStatus.CANCELLED } : Order).status)) = true from rfl)]
  · intro hstat
    have hc : ([OrderStatus.PENDING, OrderStatus.PAID].contains order.status) = false := by
      cases h : order.status
      · exact absurd (Or.inl h) hstat
      · exact absurd (Or.inr h) hstat
      all_goals rfl
    simp only [cancelOrder, hfind, hc, Bool.not_false]
    rw [if_neg hnotne, if_pos trivial]

/-- A PENDING order for 3 units of product P, in a store where P's stock is
already down at 2 (the post-creation picture of the §8 scenario). -/
def pendingOrder : Order :=
  { id := "o4", orderNumber := "0000000", userId := "u1", status := .PENDING,
    subtotal := 30, shippingFee := 0, tax := 0, total := 30,
    contactEmail := "ada@example.com", contactFirstName := "Ada",
    deliveryMethod := .STORE_PICKUP,
    items := [{ productId := "p1", productName := "Protein", productBrand := "Br",
                quantity := 3, price := 10, subtotal := 30 }] }

def stateWithPending : State :=
  { products := [{ sampleProduct with quantity := 2 }], orders := [pendingOrder] }

/-- Witness for C5: cancelling the PENDING order restores P from 2 to 5, and
the immediate second cancellation fails on the CANCELLED status without
touching the store again. -/
theorem cancelOrder_behavior_witness :
    productQty (cancelOrder stateWithPending "u1" "o4").2 "p1" =
      (productQty stateWithPending "p1").map (fun q => q + (3 : ℤ)) ∧
    cancelOrder (cancelOrder stateWithPending "u1" "o4").2 "u1" "o4" =
      (.error (.invalidStatus .CANCELLED), (cancelOrder stateWithPending "u1" "o4").2) := by
  have hmain := cancelOrder_behavior stateWithPending "u1" "o4" pendingOrder
    (by decide) (by decide) (by decide)
  have hsucc := hmain.1 (Or.inl (by decide))
  refine ⟨?_, hsucc.2.2.2⟩
  exact hsucc.2.2.1 ⟨"p1", "Protein", "Br", 3, 10, 30⟩ (by decide)

/-! ### Resolution failures, request validation, duplicates -/

/-- C6: when some requested product id has no active row, `createOrder`
fails with the products-not-found error whose list holds exactly the
requested ids that do not resolve, and the store is left untouched. -/
theorem createOrder_missing_products (s : State) (uid : String) (req : CreateRequest)
    (now : ℕ) (oid : String)
    (hnd : (s.products.map (·.id)).Nodup)
    (hship : (req.deliveryMethod == DeliveryMethod.DELIVERY && req.shippingInfo.isNone) = false)
    (hmiss : ∃ pid ∈ productIds req, findActive s pid = none) :
    ∃ missing, createOrder s uid req now oid = (.error (.productsNotFound missing), s) ∧
      ∀ pid ∈ productIds req, (pid ∈ missing ↔ findActive s pid = none) := by
  obtain ⟨pid0, hpid0, hmiss0⟩ := hmiss
  have hne : req.items.isEmpty = false := by
    cases hie : req.items.isEmpty
    · rfl
    · rw [List.isEmpty_iff] at hie
      rw [productIds, hie] at hpid0
      cases hpid0
  have hlt := fetched_length_lt s req pid0 hnd hpid0 hmiss0
  refine ⟨(productIds req).filter
      (fun i => !((fetchedProducts s req).map (·.id)).contains i), ?_, ?_⟩
  · simp only [createOrder]
    rw [if_neg (by rw [hne]; exact Bool.false_ne_true),
      if_neg (by rw [hship]; exact Bool.false_ne_true),
      if_pos (Nat.ne_of_lt hlt)]
  · intro pid hpid
    rw [List.mem_filter]
    constructor
    · rintro ⟨-, hnc⟩
      rw [Bool.not_eq_true'] at hnc
      cases hfa : findActive s pid with
      | none => rfl
      | some p =>
        have hmem : pid ∈ (fetchedProducts s req).map (·.id) :=
          (mem_fetched_ids_iff s req pid hpid).mpr (by rw [hfa]; rfl)
        have hct : ((fetchedProducts s req).map (·.id)).contains pid = true :=
          List.elem_iff.mpr hmem
        rw [hct] at hnc
        cases hnc
    · intro hfa
      refine ⟨hpid, ?_⟩
      rw [Bool.not_eq_true']
      cases hc : ((fetchedProducts s req).map (·.id)).contains pid
      · rfl
      · have hmem := List.elem_iff.mp hc
        have := (mem_fetched_ids_iff s req pid hpid).mp hmem
        rw [hfa] at this
        cases this

/-- A request referencing the absent product id `p2`. -/
def missingRequest : CreateRequest :=
  { items := [{ productId := "p2", quantity := 1 }]
    contactInfo := sampleContact
    deliveryMethod := .STORE_PICKUP
    shippingInfo := none }

/-- Witness for C6: ordering the unknown `p2` fails listing exactly `p2` and
leaves the store unchanged. -/
theorem createOrder_missing_products_witness :
    createOrder sampleState "u1" missingRequest 1696500000000 "o5" =
      (.error (.productsNotFound ["p2"]), sampleState) := by
  obtain ⟨missing, heq, -⟩ :=
    createOrder_missing_products sampleState "u1" missingRequest 1696500000000 "o5"
      (by decide) (by decide) ⟨"p2", by decide, by decide⟩
  cases heq ▸ (rfl : (Except.error (OrderError.productsNotFound missing),
      sampleState) = (Except.error (OrderError.productsNotFound missing), sampleState))
  decide

/-- C7 (amended): the two request validations `createOrder` actually
performs, each failing before any state is created: an empty items list,
and delivery without a shipping address. -/
theorem createOrder_request_validation (s : State) (uid : String) (req : CreateRequest)
    (now : ℕ) (oid : String) :
    (req.items = [] → createOrder s uid req now oid = (.error .emptyOrder, s)) ∧
    (req.items ≠ [] → req.deliveryMethod = .DELIVERY → req.shippingInfo = none →
       createOrder s uid req now oid = (.error .shippingRequired, s)) := by
  constructor
  · intro h
    simp [createOrder, h]
  · intro hne hdm hsi
    have hie : req.items.isEmpty = false := by
      cases hie2 : req.items.isEmpty
      · rfl
      · exact absurd (List.isEmpty_iff.mp hie2) hne
    simp only [createOrder]
    rw [if_neg (by rw [hie]; exact Bool.false_ne_true),
      if_pos (by rw [hdm, hsi]; rfl)]

/-- A request with an empty items list. -/
def emptyItemsRequest : CreateRequest :=
  { items := []
    contactInfo := sampleContact
    deliveryMethod := .STORE_PICKUP
    shippingInfo := none }

/-- A delivery request without shipping info. -/
def deliveryNoShipRequest : CreateRequest :=
  { items := [{ productId := "p1", quantity := 1 }]
    contactInfo := sampleContact
    deliveryMethod := .DELIVERY
    shippingInfo := none }

/-- Witness for C7's amended validations at concrete requests. -/
theorem createOrder_request_validation_witness :
    createOrder sampleState "u1" emptyItemsRequest 1696500000000 "o6" =
      (.error .emptyOrder, sampleState) ∧
    createOrder sampleState "u1" deliveryNoShipRequest 1696500000000 "o6" =
      (.error .shippingRequired, sampleState) :=
  ⟨(createOrder_request_validation sampleState "u1" emptyItemsRequest 1696500000000 "o6").1 rfl,
   (createOrder_request_validation sampleState "u1" deliveryNoShipRequest 1696500000000 "o6").2
     (by decide) rfl rfl⟩

/-- A request with an item of quantity 0 for the in-stock product P. -/
def zeroQtyRequest : CreateRequest :=
  { items := [{ productId := "p1", quantity := 0 }]
    contactInfo := sampleContact
    deliveryMethod := .STORE_PICKUP
    shippingInfo := none }

/-- The zero-quantity order as the code creates it. -/
def zeroQtyOrder : Order :=
  { id := "o7", orderNumber := "0000000", userId := "u1", status := .PENDING,
    subtotal := 0, shippingFee := 0, tax := 0, total := 0,
    contactEmail := "ada@example.com", contactFirstName := "Ada",
    deliveryMethod := .STORE_PICKUP,
    items := [{ productId := "p1", productName := "Protein", productBrand := "Br",
                quantity := 0, price := 10, subtotal := 0 }] }

/-- C7 counterexample: a non-positive quantity is NOT rejected — the order
is created (with a zero-quantity line) and the stock is decremented by 0. -/
theorem createOrder_nonpositive_quantity_accepted :
    createOrder sampleState "u1" zeroQtyRequest 1696500000000 "o7" =
      (.ok zeroQtyOrder, { products := [sampleProduct], orders := [zeroQtyOrder] }) := by
  norm_num [createOrder, sampleState, zeroQtyRequest, sampleProduct, sampleContact,
    zeroQtyOrder, fetchedProducts, productIds, resolveAll, mkOrderItem, stockViolation,
    applyStockDeltas, applyDelta, calculateShippingFee, generateOrderNumber]
  decide

/-- C8: a request listing the same existing active product twice is rejected
by the count check with an empty missing-ids list, and no order is created. -/
theorem createOrder_duplicate_items (s : State) (uid : String) (req : CreateRequest)
    (now : ℕ) (oid : String)
    (hnd : (s.products.map (·.id)).Nodup)
    (hship : (req.deliveryMethod == DeliveryMethod.DELIVERY && req.shippingInfo.isNone) = false)
    (hdup : ¬ (productIds req).Nodup)
    (hall : ∀ pid ∈ productIds req, (findActive s pid).isSome) :
    createOrder s uid req now oid = (.error (.productsNotFound []), s) := by
  have hne : req.items.isEmpty = false := by
    cases hie : req.items.isEmpty
    · rfl
    · rw [List.isEmpty_iff] at hie
      refine absurd ?_ hdup
      rw [productIds, hie]
      exact List.nodup_nil
  have hlt := fetched_length_lt_of_dup s req hnd hdup
  have hmissing : (productIds req).filter
      (fun i => !((fetchedProducts s req).map (·.id)).contains i) = [] := by
    refine List.filter_eq_nil_iff.mpr (fun pid hpid hc => ?_)
    rw [Bool.not_eq_true'] at hc
    have hmem := (mem_fetched_ids_iff s req pid hpid).mpr (hall pid hpid)
    have hct : ((fetchedProducts s req).map (·.id)).contains pid = true :=
      List.elem_iff.mpr hmem
    rw [hct] at hc
    cases hc
  simp only [createOrder]
  rw [if_neg (by rw [hne]; exact Bool.false_ne_true),
    if_neg (by rw [hship]; exact Bool.false_ne_true),
    if_pos (Nat.ne_of_lt hlt), hmissing]

/-- A request listing product P twice. -/
def duplicateRequest : CreateRequest :=
  { items := [{ productId := "p1", quantity := 1 }, { productId := "p1", quantity := 2 }]
    contactInfo := sampleContact
    deliveryMethod := .STORE_PICKUP
    shippingInfo := none }

/-- Witness for C8 at the concrete duplicate request. -/
theorem createOrder_duplicate_items_witness :
    createOrder sampleState "u1" duplicateRequest 1696500000000 "o8" =
      (.error (.productsNotFound []), sampleState) :=
  createOrder_duplicate_items sampleState "u1" duplicateRequest 1696500000000 "o8"
    (by decide) (by decide) (by decide) (by decide)

/-! ### Notification dispatch -/

/-- The outcome of the asynchronous email send (`sendEmail` resolves with a
success flag or the promise rejects; either way the controller only attaches
a logging `.catch`). -/
inductive EmailOutcome
  | delivered
  | failed
  deriving DecidableEq

/-- What reaches the process log from a fire-and-forget send. -/
def notifyLog (failMsg : String) : EmailOutcome → List String
  | .delivered => []
  | .failed => [failMsg]

/-- The full response of an HTTP handler: the JSON outcome, the store after
the call, and the log lines produced by the notification path. -/
structure HandlerRun (ε : Type) where
  response : Except ε Order
  state : State
  log : List String
  deriving DecidableEq

/-- Creation as the full request handler: on a committed order the
confirmation email is dispatched with a `.catch` that only logs. -/
def createOrderHandler (s : State) (uid : String) (req : CreateRequest) (now : ℕ)
    (oid : String) (email : EmailOutcome) : HandlerRun OrderError :=
  match createOrder s uid req now oid with
  | (.ok o, s2) =>
    { response := .ok o, state := s2,
      log := notifyLog "Failed to send order confirmation email:" email }
  | (.error e, s2) => { response := .error e, state := s2, log := [] }

/-- Cancellation as the full request handler, with the status email's `.catch`. -/
def cancelOrderHandler (s : State) (uid oid : String) (email : EmailOutcome) :
    HandlerRun CancelError :=
  match cancelOrder s uid oid with
  | (.ok o, s2) =>
    { response := .ok o, state := s2,
      log := notifyLog "Failed to send order cancellation email:" email }
  | (.error e, s2) => { response := .error e, state := s2, log := [] }

/-- Status update as the full request handler, with the status email's
`.catch`. -/
def updateOrderStatusHandler (s : State) (oid : String) (st : OrderStatus)
    (email : EmailOutcome) : HandlerRun UpdateError :=
  match updateOrderStatus s oid st with
  | (.ok o, s2) =>
    { response := .ok o, state := s2,
      log := notifyLog "Failed to send order status email:" email }
  | (.error e, s2) => { response := .error e, state := s2, log := [] }

/-- C9: for each of the three operations, the email outcome never changes
the reported response or the stored state — a send failure is visible only
in the log — and in particular a committed order creation still reports
success when the email fails. -/
theorem notification_failure_isolated (s : State) (uid oid : String) (req : CreateRequest)
    (now : ℕ) (noid : String) (st : OrderStatus) (e1 e2 : EmailOutcome) :
    ((createOrderHandler s uid req now noid e1).response =
       (createOrderHandler s uid req now noid e2).response ∧
     (createOrderHandler s uid req now noid e1).state =
       (createOrderHandler s uid req now noid e2).state) ∧
    ((cancelOrderHandler s uid oid e1).response = (cancelOrderHandler s uid oid e2).response ∧
     (cancelOrderHandler s uid oid e1).state = (cancelOrderHandler s uid oid e2).state) ∧
    ((updateOrderStatusHandler s oid st e1).response =
       (updateOrderStatusHandler s oid st e2).response ∧
     (updateOrderStatusHandler s oid st e1).state =
       (updateOrderStatusHandler s oid st e2).state) ∧
    (∀ order, (createOrder s uid req now noid).1 = .ok order →
       (createOrderHandler s uid req now noid e1).response = .ok order) := by
  refine ⟨?_, ?_, ?_, ?_⟩
  · unfold createOrderHandler
    rcases createOrder s uid req now noid with ⟨r, s2⟩
    cases r <;> exact ⟨rfl, rfl⟩
  · unfold cancelOrderHandler
    rcases cancelOrder s uid oid with ⟨r, s2⟩
    cases r <;> exact ⟨rfl, rfl⟩
  · unfold updateOrderStatusHandler
    rcases updateOrderStatus s oid st with ⟨r, s2⟩
    cases r <;> exact ⟨rfl, rfl⟩
  · intro order h
    unfold createOrderHandler
    rcases hco : createOrder s uid req now noid with ⟨r, s2⟩
    rw [hco] at h
    have hr : r = Except.ok order := h
    subst hr
    rfl

/-- Witness for C9: the sample creation commits, and with a failed email (as
against a delivered one) the handler still answers with the created order. -/
theorem notification_failure_isolated_witness :
    (createOrderHandler sampleState "u1" sampleRequest 1696500000000 "o1"
        EmailOutcome.failed).response = .ok sampleOrder :=
  (notification_failure_isolated sampleState "u1" "o1" sampleRequest 1696500000000 "o1"
      OrderStatus.PENDING EmailOutcome.failed EmailOutcome.delivered).2.2.2
    sampleOrder (by rw [sample_createOrder_eq])

/-! ### Order-number generation -/

/-- Fuel irrelevance: `Nat.toDigitsCore` ignores its fuel when there is enough of it. -/
theorem toDigitsCore_fuel (n : ℕ) : ∀ (f1 f2 : ℕ), n < f1 → n < f2 → ∀ ds : List Char,
    Nat.toDigitsCore 10 f1 n ds = Nat.toDigitsCore 10 f2 n ds := by
  induction n using Nat.strong_induction_on with
  | _ n ih =>
    intro f1 f2 h1 h2 ds
    cases f1 with
    | zero => omega
    | succ g1 =>
      cases f2 with
      | zero => omega
      | succ g2 =>
        simp only [Nat.toDigitsCore]
        by_cases hdiv : n / 10 = 0
        · rw [if_pos hdiv, if_pos hdiv]
        · rw [if_neg hdiv, if_neg hdiv]
          have hn10 : 10 ≤ n := by
            by_contra hlt10
            exact hdiv (Nat.div_eq_of_lt (by omega))
          have hlt : n / 10 < n := Nat.div_lt_self (by omega) (by omega)
          exact ih (n / 10) hlt g1 g2 (by omega) (by omega) _

/-- Accumulator law: `Nat.toDigitsCore` only ever prepends to its accumulator. -/
theorem toDigitsCore_acc (n : ℕ) : ∀ (f : ℕ), n < f → ∀ ds : List Char,
    Nat.toDigitsCore 10 f n ds = Nat.toDigitsCore 10 f n [] ++ ds := by
  induction n using Nat.strong_induction_on with
  | _ n ih =>
    intro f hf ds
    cases f with
    | zero => omega
    | succ g =>
      simp only [Nat.toDigitsCore]
      by_cases hdiv : n / 10 = 0
      · rw [if_pos hdiv, if_pos hdiv]
        rfl
      · rw [if_neg hdiv, if_neg hdiv]
        have hn10 : 10 ≤ n := by
          by_contra hlt10
          exact hdiv (Nat.div_eq_of_lt (by omega))
        have hlt : n / 10 < n := Nat.div_lt_self (by omega) (by omega)
        rw [ih (n / 10) hlt g (by omega) (Nat.digitChar (n % 10) :: ds),
          ih (n / 10) hlt g (by omega) [Nat.digitChar (n % 10)],
          List.append_assoc]
        rfl

/-- One digit for numbers below the base. -/
theorem toDigits_lt_10 (n : ℕ) (h : n < 10) : Nat.toDigits 10 n = [Nat.digitChar n] := by
  unfold Nat.toDigits
  simp only [Nat.toDigitsCore]
  rw [if_pos (Nat.div_eq_of_lt h), Nat.mod_eq_of_lt h]

/-- The defining recurrence of the decimal digit string. -/
theorem toDigits_ge_10 (n : ℕ) (h : 10 ≤ n) :
    Nat.toDigits 10 n = Nat.toDigits 10 (n / 10) ++ [Nat.digitChar (n % 10)] := by
  unfold Nat.toDigits
  simp only [Nat.toDigitsCore]
  have hdivpos : 0 < n / 10 := Nat.div_pos h (by norm_num)
  rw [if_neg (by omega)]
  have hlt : n / 10 < n := Nat.div_lt_self (by omega) (by omega)
  rw [toDigitsCore_acc (n / 10) n hlt [Nat.digitChar (n % 10)]]
  congr 1
  exact toDigitsCore_fuel (n / 10) n (n / 10 + 1) hlt (Nat.lt_succ_self _) []

/-- Left-pads a digit string with zeros up to width `k`. -/
def zeroPad (k : ℕ) (l : List Char) : List Char :=
  List.replicate (k - l.length) '0' ++ l

/-- Appending one digit on the right shifts the pad width by one. -/
theorem zeroPad_append_singleton (k : ℕ) (l : List Char) (c : Char) :
    zeroPad k l ++ [c] = zeroPad (k + 1) (l ++ [c]) := by
  unfold zeroPad
  rw [List.length_append]
  have h1 : ([c] : List Char).length = 1 := rfl
  rw [h1]
  have h2 : k + 1 - (l.length + 1) = k - l.length := by omega
  rw [h2, List.append_assoc]

theorem zeroPad_length (k : ℕ) (l : List Char) (h : l.length ≤ k) :
    (zeroPad k l).length = k := by
  simp only [zeroPad, List.length_append, List.length_replicate]
  omega

/-- Digit-count bound, borrowed from the library's length bound on
`Nat.repr`. -/
theorem toDigits_length_le (n k : ℕ) (hk : 0 < k) (h : n < 10 ^ k) :
    (Nat.toDigits 10 n).length ≤ k :=
  Nat.repr_length n k hk h

/-- Splitting the decimal string of `n ≥ 10^(k+1)`: the digits of the upper
part followed by the zero-padded digits of the lower `k+1` digits. -/
theorem toDigits_split : ∀ (k n : ℕ), 10 ^ (k + 1) ≤ n →
    Nat.toDigits 10 n =
      Nat.toDigits 10 (n / 10 ^ (k + 1)) ++
        zeroPad (k + 1) (Nat.toDigits 10 (n % 10 ^ (k + 1))) := by
  intro k
  induction k with
  | zero =>
    intro n hn
    rw [pow_one] at hn
    have hm : n % 10 < 10 := Nat.mod_lt n (by norm_num)
    rw [pow_one, toDigits_ge_10 n hn, toDigits_lt_10 (n % 10) hm]
    simp [zeroPad]
  | succ k ih =>
    intro n hn
    have h1 : (10 : ℕ) ^ (k + 2) = 10 ^ (k + 1) * 10 := by ring
    have hup : (10 : ℕ) ≤ 10 ^ (k + 2) := by
      calc (10 : ℕ) = 10 ^ 1 := (pow_one 10).symm
        _ ≤ 10 ^ (k + 2) := Nat.pow_le_pow_right (by norm_num) (by omega)
    have hn10 : 10 ≤ n := le_trans hup hn
    have hdivge : 10 ^ (k + 1) ≤ n / 10 := by
      rw [Nat.le_div_iff_mul_le (by norm_num : (0:ℕ) < 10)]
      omega
    have hdd : n / 10 / 10 ^ (k + 1) = n / 10 ^ (k + 2) := by
      rw [Nat.div_div_eq_div_mul]
      congr 1
      omega
    rw [toDigits_ge_10 n hn10, ih (n / 10) hdivge, hdd, List.append_assoc]
    congr 1
    have hrlt : (n / 10) % 10 ^ (k + 1) < 10 ^ (k + 1) := Nat.mod_lt _ (by positivity)
    have hdlt : n % 10 < 10 := Nat.mod_lt _ (by norm_num)
    have hm : n % 10 ^ (k + 2) = 10 * ((n / 10) % 10 ^ (k + 1)) + n % 10 := by
      have h2 : (10 : ℕ) ^ (k + 2) = 10 * 10 ^ (k + 1) := by ring
      rw [h2, Nat.mod_mul]
      omega
    rw [hm]
    by_cases hr0 : (n / 10) % 10 ^ (k + 1) = 0
    · rw [hr0]
      have hz : (10 : ℕ) * 0 + n % 10 = n % 10 := by omega
      rw [hz, toDigits_lt_10 (n % 10) hdlt]
      have h0 : Nat.toDigits 10 0 = ['0'] := rfl
      rw [h0]
      show List.replicate (k + 1 - 1) '0' ++ ['0'] ++ [Nat.digitChar (n % 10)] =
        List.replicate (k + 2 - 1) '0' ++ [Nat.digitChar (n % 10)]
      have hk1 : k + 1 - 1 = k := by omega
      have hk2 : k + 2 - 1 = k + 1 := by omega
      rw [hk1, hk2, List.replicate_succ' k '0', List.append_assoc]
    · have hrpos : 0 < (n / 10) % 10 ^ (k + 1) := Nat.pos_of_ne_zero hr0
      have hm10 : 10 ≤ 10 * ((n / 10) % 10 ^ (k + 1)) + n % 10 := by omega
      rw [toDigits_ge_10 _ hm10]
      have hq : (10 * ((n / 10) % 10 ^ (k + 1)) + n % 10) / 10 = (n / 10) % 10 ^ (k + 1) := by
        rw [Nat.mul_add_div (by norm_num : (0:ℕ) < 10), Nat.div_eq_of_lt hdlt]
        omega
      have hmod : (10 * ((n / 10) % 10 ^ (k + 1)) + n % 10) % 10 = n % 10 := by
        rw [Nat.mul_add_mod]
        exact Nat.mod_eq_of_lt hdlt
      rw [hq, hmod]
      exact zeroPad_append_singleton (k + 1) _ _

/-- For realistic timestamps the generated order number is exactly the
zero-padded last 7 decimal digits — a function of `t % 10^7` alone. -/
theorem generateOrderNumber_eq (t : ℕ) (h : 10 ^ 7 ≤ t) :
    generateOrderNumber t = (zeroPad 7 (Nat.toDigits 10 (t % 10 ^ 7))).asString := by
  have hsplit : Nat.toDigits 10 t =
      Nat.toDigits 10 (t / 10 ^ 7) ++ zeroPad 7 (Nat.toDigits 10 (t % 10 ^ 7)) :=
    toDigits_split 6 t h
  have hmod : t % 10 ^ 7 < 10 ^ 7 := Nat.mod_lt _ (by norm_num)
  have hlen : (zeroPad 7 (Nat.toDigits 10 (t % 10 ^ 7))).length = 7 :=
    zeroPad_length 7 _ (toDigits_length_le _ 7 (by norm_num) hmod)
  show (Nat.repr t).drop ((Nat.repr t).length - 7) = _
  have hrepr : Nat.repr t = (Nat.toDigits 10 t).asString := rfl
  rw [hrepr, String.drop_eq]
  have hdata : ((Nat.toDigits 10 t).asString.data.drop ((Nat.toDigits 10 t).asString.length - 7))
      = zeroPad 7 (Nat.toDigits 10 (t % 10 ^ 7)) := by
    show ((Nat.toDigits 10 t).drop ((Nat.toDigits 10 t).length - 7)) = _
    rw [hsplit, List.length_append, hlen]
    have harith : (Nat.toDigits 10 (t / 10 ^ 7)).length + 7 - 7 =
        (Nat.toDigits 10 (t / 10 ^ 7)).length := by omega
    rw [harith, List.drop_left]
  rw [hdata]
  rfl

/-- C10: for every timestamp of at least `10^7` milliseconds the order
number is a 7-character numeric string determined by the timestamp's last 7
decimal digits — so adding any multiple of `10^7` reproduces it — and the
generator is not injective. -/
theorem generateOrderNumber_spec :
    (∀ t : ℕ, 10 ^ 7 ≤ t →
       (generateOrderNumber t).length = 7 ∧
       (∀ c ∈ (generateOrderNumber t).data, c.isDigit = true) ∧
       (∀ k : ℕ, generateOrderNumber (t + 10 ^ 7 * k) = generateOrderNumber t)) ∧
    (∃ t1 t2 : ℕ, t1 ≠ t2 ∧ generateOrderNumber t1 = generateOrderNumber t2) := by
  have hdigitChar : ∀ d : ℕ, d < 10 → (Nat.digitChar d).isDigit = true := by decide
  have hdigits : ∀ n : ℕ, ∀ c ∈ Nat.toDigits 10 n, c.isDigit = true := by
    intro n
    induction n using Nat.strong_induction_on with
    | _ n ih =>
      by_cases h : n < 10
      · rw [toDigits_lt_10 n h]
        intro c hc
        rw [List.mem_singleton.mp hc]
        exact hdigitChar n h
      · push_neg at h
        rw [toDigits_ge_10 n h]
        intro c hc
        rcases List.mem_append.mp hc with h1 | h2
        · exact ih (n / 10) (Nat.div_lt_self (by omega) (by omega)) c h1
        · rw [List.mem_singleton.mp h2]
          exact hdigitChar (n % 10) (Nat.mod_lt _ (by norm_num))
  refine ⟨?_, 10000000, 20000000, by norm_num, by decide⟩
  intro t ht
  have hmod : t % 10 ^ 7 < 10 ^ 7 := Nat.mod_lt _ (by norm_num)
  have hlen : (zeroPad 7 (Nat.toDigits 10 (t % 10 ^ 7))).length = 7 :=
    zeroPad_length 7 _ (toDigits_length_le _ 7 (by norm_num) hmod)
  refine ⟨?_, ?_, ?_⟩
  · rw [generateOrderNumber_eq t ht]
    exact hlen
  · rw [generateOrderNumber_eq t ht]
    intro c hc
    have hc2 : c ∈ zeroPad 7 (Nat.toDigits 10 (t % 10 ^ 7)) := hc
    rcases List.mem_append.mp hc2 with h1 | h2
    · rw [List.eq_of_mem_replicate h1]
      rfl
    · exact hdigits _ c h2
  · intro k
    rw [generateOrderNumber_eq t ht,
      generateOrderNumber_eq (t + 10 ^ 7 * k) (le_trans ht (Nat.le_add_right _ _)),
      Nat.add_mul_mod_self_left]

/-- Witness for C10 at the concrete timestamp 1696500000000. -/
theorem generateOrderNumber_spec_witness :
    (10 : ℕ) ^ 7 ≤ 1696500000000 ∧ (generateOrderNumber 1696500000000).length = 7 :=
  ⟨by norm_num, (generateOrderNumber_spec.1 1696500000000 (by norm_num)).1⟩

end NutriWell
